import Mathlib

/-!
Verification development for the yggdrasilctl admin-socket client
(src/cmd/yggdrasilctl/main.go).

The client decodes JSON into a map from strings to dynamic values
(admin_info, line 20 of the source).  We model the dynamic value as the
inductive JVal below.  JSON numbers are float64 in the source; we model
them as exact rationals, so quantitative statements are about the exact
arithmetic the source expresses (true floating-point rounding is out of
scope of a shallow embedding).  Go maps are unordered; we model a decoded
map as an association list, which fixes one admissible iteration order.

Panics from single-valued type assertions, for example
res["self"].(map[string]interface{}), are modeled by an Option String
component carrying a panic message; the recover handler in run (lines
31 to 38) prints a fatal diagnostic and, because the deferred closure
cannot set the unnamed result of run, makes run return 0.  Output is a
list of printed chunks, one element per print call that ends a line; the
log timestamp prefix of the crash report and the pre-decode log lines
are connection-stage concerns outside the embedded fragment.
-/

/-- Dynamic JSON value: the shape of admin_info entries after decoding. -/
inductive JVal where
  | null : JVal
  | bool : Bool → JVal
  | num : ℚ → JVal
  | str : String → JVal
  | arr : List JVal → JVal
  | obj : List (String × JVal) → JVal

/-- Association-list lookup, modeling Go map indexing with presence bit. -/
def lget {κ α : Type} [DecidableEq κ] (m : List (κ × α)) (k : κ) : Option α :=
  match m with
  | [] => none
  | (k0, v0) :: rest => if k0 = k then some v0 else lget rest k

/-- Association-list store, modeling Go map assignment. -/
def lset {κ α : Type} [DecidableEq κ] (m : List (κ × α)) (k : κ) (v : α) : List (κ × α) :=
  match m with
  | [] => [(k, v)]
  | (k0, v0) :: rest => if k0 = k then (k, v) :: rest else (k0, v0) :: lset rest k v

/-- A decoded JSON object, the admin_info map of the source. -/
abbrev JMap := List (String × JVal)

def jget (m : JMap) (k : String) : Option JVal := lget m k

def jset (m : JMap) (k : String) (v : JVal) : JMap := lset m k v

/-- Printed output of a formatter plus an optional panic message. -/
abbrev Out := List String × Option String

/-- Does the value equal the given Go string constant (interface comparison). -/
def isStrEq (v : JVal) (s : String) : Bool :=
  match v with
  | .str t => t == s
  | _ => false

/-- ASCII lower-casing of one character.  strings.ToLower is Unicode aware,
but on the strings this program compares against (true, false and the fixed
command names, all ASCII with no letter k) the two agree. -/
def lowerChar (c : Char) : Char :=
  if 'A' ≤ c ∧ c ≤ 'Z' then Char.ofNat (c.toNat + 32) else c

def asciiLower (s : String) : String := String.mk (s.data.map lowerChar)

/-- Byte length of a string, the Go builtin len on strings. -/
def goLen (s : String) : Nat := s.utf8ByteSize

/-- Left-justified padding to a minimum width counted in runes, the Go verb
with a minus flag and a width, as in the Printf calls of the renderer. -/
def padGo (s : String) (w : Nat) : String :=
  s ++ String.mk (List.replicate (w - s.length) ' ')

/-- Two-digit zero padding of a nonnegative integer, the 02d verb. -/
def pad2 (n : Nat) : String := if n < 10 then "0" ++ toString n else toString n

/-- Byte-wise comparison of strings as Go defines string order; on lists of
characters this is code-point order, which UTF-8 byte order coincides with. -/
def leChars : List Char → List Char → Bool
  | [], _ => true
  | _ :: _, [] => false
  | a :: as, b :: bs =>
    if a.toNat = b.toNat then leChars as bs else decide (a.toNat < b.toNat)

def strLeGo (a b : String) : Bool := leChars a.data b.data

def insertSorted (s : String) : List String → List String
  | [] => [s]
  | t :: ts => if strLeGo s t then s :: t :: ts else t :: insertSorted s ts

/-- Ascending sort of strings, modeling sort.Strings (line 229). -/
def sortStrings (l : List String) : List String := l.foldr insertSorted []

/-- Boolean string-prefix test (structural, used only in statements). -/
def hasPre (p s : String) : Bool := p.data.isPrefixOf s.data

/-- Does the token start with a dash, strings.HasPrefix(a, "-") at line 68. -/
def startsDash (a : String) : Bool :=
  match a.data with
  | '-' :: _ => true
  | _ => false

/-- Splitting a character list at every equals sign; strings.Split(a, "=")
at line 76 restricted to this separator.  Never returns the empty list. -/
def splitEq : List Char → List (List Char)
  | [] => [[]]
  | c :: rest =>
    if c = '=' then [] :: splitEq rest
    else
      match splitEq rest with
      | [] => [[c]]
      | h :: t => (c :: h) :: t

/-- Rejoining segments with the equals sign; strings.Join(tokens, "=")
at line 80 restricted to this separator. -/
def joinEq : List (List Char) → List Char
  | [] => []
  | [x] => x
  | x :: xs => x ++ '=' :: joinEq xs

def digitsToNat (l : List Char) : Nat :=
  l.foldl (fun acc c => acc * 10 + (c.toNat - 48)) 0

/-- strconv.Atoi at line 82: an optional sign, then decimal digits only,
rejected when the value overflows the 64-bit int range. -/
def goAtoi (s : String) : Option Int :=
  let l := s.data
  let p : Int × List Char :=
    match l with
    | '+' :: rest => (1, rest)
    | '-' :: rest => (-1, rest)
    | _ => (1, l)
  if p.2.isEmpty then none
  else if p.2.all (fun c => c.isDigit) then
    let v : Int := p.1 * digitsToNat p.2
    if -(2 ^ 63) ≤ v ∧ v ≤ 2 ^ 63 - 1 then some v else none
  else none

/-- Coercion of the second segment when the token split in exactly two,
lines 82 to 95: integer first, then case-insensitive true or false,
otherwise the raw text. -/
def coerce2 (t1 : List Char) : JVal :=
  match goAtoi (String.mk t1) with
  | some i => .num i
  | none =>
    if asciiLower (String.mk t1) = "true" then .bool true
    else if asciiLower (String.mk t1) = "false" then .bool false
    else .str (String.mk t1)

/-- Per-token parameter coercion, the loop body for tokens after the command
name, lines 76 to 96: one segment stores true under the whole token, two
segments coerce the value, three or more store the rejoined remainder as
text with no coercion.  splitEq never yields the empty list, so the last
arm is unreachable. -/
def coerceParam (a : String) : String × JVal :=
  match splitEq a.data with
  | [t0] => (String.mk t0, .bool true)
  | [t0, t1] => (String.mk t0, coerce2 t1)
  | t0 :: rest => (String.mk t0, .str (String.mk (joinEq rest)))
  | [] => (a, .bool true)

/-- The send map built by run from the CLI arguments, lines 63 to 97: the
first token becomes the request field unless it starts with a dash, every
later token goes through coerceParam. -/
def buildSend : List String → JMap
  | [] => []
  | a0 :: rest =>
    let init : JMap := if startsDash a0 then [] else jset [] "request" (.str a0)
    rest.foldl (fun send a => jset send (coerceParam a).1 (coerceParam a).2) init

/-- Count of equals signs in a token, used to phrase the specified coercion. -/
def eqCount (a : String) : Nat := a.data.count '='

/-- First segment of a token: the characters before the first equals sign. -/
def keyPart (a : String) : String :=
  String.mk (a.data.takeWhile (fun c => c != '='))

/-- Everything after the first equals sign, which equals the remaining
segments rejoined with the separator. -/
def afterEq (a : String) : String :=
  String.mk ((a.data.dropWhile (fun c => c != '=')).tail)

/-- The coercion exactly as the specification words it: no equals sign gives
Bool true, exactly one gives integer, then case-insensitive boolean, then
text, and more than one gives the rejoined remainder as text uncoerced. -/
def claimCoerce (a : String) : String × JVal :=
  if eqCount a = 0 then (a, .bool true)
  else if eqCount a = 1 then
    (keyPart a,
      match goAtoi (afterEq a) with
      | some i => .num i
      | none =>
        if asciiLower (afterEq a) = "true" then .bool true
        else if asciiLower (afterEq a) = "false" then .bool false
        else .str (afterEq a))
  else (keyPart a, .str (afterEq a))

/-- The Request of the specification: a command name and its parameters. -/
structure Request where
  name : String
  params : List (String × JVal)

/-- The single flat document run encodes, lines 63 to 101: the request key
holds the name and every parameter is stored beside it at top level. -/
def encodeRequest (r : Request) : JMap :=
  r.params.foldl (fun m p => jset m p.1 p.2) (jset [] "request" (.str r.name))

/-- Decoding the encoded document back as a generic value.  The byte-level
serializer and parser are the encoding/json library, an external
collaborator that round-trips a generic map document; at the value level
the round trip is the identity on the object. -/
def decodeEncoded (m : JMap) : JVal := .obj m

/-- Rendering of a float64 with the default verb.  The source only ever
prints wire numbers; we render integral values the way Go does and fall
back to the rational printer otherwise (fractional shortest-float output
is a floating-point concern outside the embedding). -/
def goFloat (q : ℚ) : String := if q.den = 1 then toString q.num else toString q

def sortPairsStr (l : List (String × String)) : List (String × String) :=
  l.foldr (fun p acc =>
    let rec ins : List (String × String) → List (String × String)
      | [] => [p]
      | t :: ts => if strLeGo p.1 t.1 then p :: t :: ts else t :: ins ts
    ins acc) []

mutual
/-- fmt.Sprint of a decoded value: nil prints as a bracketed nil marker,
booleans and strings print plainly, sequences space-separated in brackets,
and maps with a map prefix and colon-joined entries in key order. -/
def goSprint : JVal → String
  | .null => "<nil>"
  | .bool b => if b then "true" else "false"
  | .num q => goFloat q
  | .str s => s
  | .arr xs => "[" ++ String.intercalate " " (goSprintList xs) ++ "]"
  | .obj fs =>
    "map[" ++
      String.intercalate " "
        ((sortPairsStr (goSprintPairs fs)).map (fun p => p.1 ++ ":" ++ p.2)) ++ "]"
def goSprintList : List JVal → List String
  | [] => []
  | x :: xs => goSprint x :: goSprintList xs
def goSprintPairs : List (String × JVal) → List (String × String)
  | [] => []
  | (k, v) :: xs => (k, goSprint v) :: goSprintPairs xs
end

def hexDigit (n : Nat) : Char :=
  if n < 10 then Char.ofNat (48 + n) else Char.ofNat (87 + n)

/-- JSON string escaping as encoding/json performs it, including the HTML
escapes for angle brackets and ampersands. -/
def escChar (c : Char) : String :=
  if c = '"' then "\\\""
  else if c = '\\' then "\\\\"
  else if c = '\n' then "\\n"
  else if c = '\r' then "\\r"
  else if c = '\t' then "\\t"
  else if c = '<' then "\\u003c"
  else if c = '>' then "\\u003e"
  else if c = '&' then "\\u0026"
  else if c.toNat < 32 then
    "\\u00" ++ String.mk [hexDigit (c.toNat / 16), hexDigit (c.toNat % 16)]
  else if c.toNat = 8232 then "\\u2028"
  else if c.toNat = 8233 then "\\u2029"
  else String.mk [c]

def jsonQuote (s : String) : String :=
  "\"" ++ String.join (s.data.map escChar) ++ "\""

def goJsonNum (q : ℚ) : String := goFloat q

mutual
/-- json.MarshalIndent with empty prefix and a two-space indent: object keys
are emitted in sorted order, nested values indent one step deeper. -/
def jsonInd : String → JVal → String
  | _, .null => "null"
  | _, .bool b => if b then "true" else "false"
  | _, .num q => goJsonNum q
  | _, .str s => jsonQuote s
  | ind, .arr xs =>
    match xs with
    | [] => "[]"
    | _ =>
      "[\n" ++ String.intercalate ",\n" (jsonIndList (ind ++ "  ") xs) ++
        "\n" ++ ind ++ "]"
  | ind, .obj fs =>
    match fs with
    | [] => "\x7b\x7d"
    | _ =>
      "\x7b\n" ++
        String.intercalate ",\n"
          ((sortPairsStr (jsonIndPairs (ind ++ "  ") fs)).map
            (fun p => ind ++ "  " ++ jsonQuote p.1 ++ ": " ++ p.2)) ++
        "\n" ++ ind ++ "\x7d"
def jsonIndList : String → List JVal → List String
  | _, [] => []
  | ind, x :: xs => (ind ++ jsonInd ind x) :: jsonIndList ind xs
def jsonIndPairs : String → List (String × JVal) → List (String × String)
  | _, [] => []
  | ind, (k, v) :: xs => (k, jsonInd ind v) :: jsonIndPairs ind xs
end

def marshalIndent (v : JVal) : String := jsonInd "" v

/-- Go conversion from float64 to uint for nonnegative values: truncation,
which is the floor.  Negative conversions are unspecified in Go and the
renderer never documents them; the clamp to zero here is a modeling choice
outside the claimed domain. -/
def goUint (q : ℚ) : Nat := (Int.floor q).toNat

/-- Per-cell formatting of the table renderer, lines 256 to 269: byte
counters print as unsigned integers, uptime and last seen as a clock time
computed from truncated divisions, anything else with the default printer.
The two special branches assert float64 and panic otherwise. -/
def formatCell (k : String) (pre : JVal) : Except String String :=
  if k = "bytes_sent" ∨ k = "bytes_recvd" then
    match pre with
    | .num q => .ok (toString (goUint q))
    | _ => .error "interface conversion"
  else if k = "uptime" ∨ k = "last_seen" then
    match pre with
    | .num q =>
      .ok (pad2 (goUint (q / 60 / 60)) ++ ":" ++ pad2 (goUint (q / 60) % 60) ++
        ":" ++ pad2 (goUint q % 60))
    | _ => .error "interface conversion"
  else .ok (goSprint pre)

/-- The renderer state declared before the category loop, lines 214 to 216.
It is shared by the whole loop, not rebuilt per category. -/
structure TableState where
  maxWidths : List (String × Nat)
  keyOrder : List String
  keysOrdered : Bool

def wget (w : List (String × Nat)) (k : String) : Nat := (lget w k).getD 0

/-- Column discovery from one record, lines 221 to 230: field names of that
record, minus the fixed exclusions unless verbose, sorted ascending. -/
def discoverKeys (verbose : Bool) (fields : JMap) : List String :=
  sortStrings ((fields.map Prod.fst).filter (fun k =>
    verbose || !(k == "box_pub_key" || k == "box_sig_key" || k == "nodeinfo" ||
      k == "was_mtu_fixed")))

/-- Width bookkeeping for one record, lines 232 to 242: the synthetic key
column grows to the record key length, each field column grows to the
printed value length and is bumped to the header length only when it grew. -/
def widthStep (w0 : List (String × Nat)) (slk : String) (fields : JMap) :
    List (String × Nat) :=
  fields.foldl (fun w kv =>
    let w1 := if goLen slk > wget w "key" then lset w "key" (goLen slk) else w
    if goLen (goSprint kv.2) > wget w1 kv.1 then
      let w2 := lset w1 kv.1 (goLen (goSprint kv.2))
      if wget w2 kv.1 < goLen kv.1 then lset w2 kv.1 (goLen kv.1) else w2
    else w1) w0

/-- First pass over the records of one category, lines 218 to 243: discover
the column order from the first record ever seen, then accumulate widths.
A record that is not an object panics. -/
def pass1 (verbose : Bool) : TableState → List (String × JVal) → TableState × Option String
  | st, [] => (st, none)
  | st, (slk, slv) :: rest =>
    match slv with
    | .obj fields =>
      let st1 : TableState :=
        if !st.keysOrdered then ⟨st.maxWidths, discoverKeys verbose fields, true⟩ else st
      let st2 : TableState := ⟨widthStep st1.maxWidths slk fields, st1.keyOrder, st1.keysOrdered⟩
      pass1 verbose st2 rest
    | _ => (st, some "interface conversion")

/-- The header line, lines 246 to 250: a blank key cell then each column
name, all left-justified with two trailing spaces. -/
def headerLine (st : TableState) : String :=
  padGo "" (wget st.maxWidths "key") ++ "  " ++
    String.join (st.keyOrder.map (fun v => padGo v (wget st.maxWidths v) ++ "  "))

/-- One record line, lines 253 to 271: the record key then each column value
formatted and padded.  A panic in a cell keeps the text printed so far. -/
def rowLine (st : TableState) (slk : String) (fields : JMap) : String × Option String :=
  st.keyOrder.foldl (fun acc k =>
    match acc.2 with
    | some _ => acc
    | none =>
      match formatCell k ((jget fields k).getD .null) with
      | .ok s => (acc.1 ++ padGo s (wget st.maxWidths k) ++ "  ", none)
      | .error e => (acc.1, some e))
    (padGo slk (wget st.maxWidths "key") ++ "  ", none)

/-- Second pass over the records of one category, emitting one line each. -/
def pass2 (st : TableState) : List (String × JVal) → List String × Option String
  | [] => ([], none)
  | (slk, slv) :: rest =>
    match slv with
    | .obj fields =>
      let r := rowLine st slk fields
      match r.2 with
      | some e => ([r.1], some e)
      | none =>
        let rr := pass2 st rest
        (r.1 :: rr.1, rr.2)
    | _ => ([], some "interface conversion")

/-- One iteration of the category loop, lines 218 to 273: widths and column
discovery, then the header when any column is known, then the record
lines.  The state flows in from the previous categories and flows out. -/
def processCategory (verbose : Bool) (st : TableState) (tlv : JVal) :
    TableState × Out :=
  match tlv with
  | .obj recs =>
    let p1 := pass1 verbose st recs
    match p1.2 with
    | some e => (p1.1, ([], some e))
    | none =>
      let header := if p1.1.keyOrder.length > 0 then [headerLine p1.1] else []
      let rows := pass2 p1.1 recs
      (p1.1, (header ++ rows.1, rows.2))
  | _ => (st, ([], some "interface conversion"))

def hviLoop (verbose : Bool) (st : TableState) : List JVal → Out
  | [] => ([], none)
  | tlv :: rest =>
    let r := processCategory verbose st tlv
    match r.2.2 with
    | some e => (r.2.1, some e)
    | none =>
      let rr := hviLoop verbose r.1 rest
      (r.2.1 ++ rr.1, rr.2)

/-- The table renderer handleVariousInfo, lines 213 to 274, iterating the
top-level categories of the response with one shared state. -/
def handleVariousInfo (res : JMap) (verbose : Bool) : Out :=
  hviLoop verbose ⟨[], [], false⟩ (res.map Prod.snd)

/-- handleDot, lines 209 to 211. -/
def handleDot (res : JMap) : Out :=
  ([goSprint ((jget res "dot").getD .null)], none)

/-- The lines printed for one entry of the self record, lines 290 to 316:
every leaf access uses a guarded assertion and a mismatch merely omits the
line. -/
def selfEntryLines (k : String) (m : JMap) (verbose : Bool) : List String :=
  (match jget m "build_name" with
   | some (.str s) => if s != "unknown" then ["Build name: " ++ s] else []
   | _ => []) ++
  (match jget m "build_version" with
   | some (.str s) => if s != "unknown" then ["Build version: " ++ s] else []
   | _ => []) ++
  ["IPv6 address: " ++ k] ++
  (match jget m "subnet" with
   | some (.str s) => ["IPv6 subnet: " ++ s]
   | _ => []) ++
  (match jget m "key" with
   | some (.str s) => ["Public key: " ++ s]
   | _ => []) ++
  (match jget m "coords" with
   | some (.str s) => ["Coords: " ++ s]
   | _ => []) ++
  (if verbose then
    (match jget m "node_id" with
     | some (.str s) => ["Node ID: " ++ s]
     | _ => []) ++
    (match jget m "box_pub_key" with
     | some (.str s) => ["Public encryption key: " ++ s]
     | _ => []) ++
    (match jget m "box_sig_key" with
     | some (.str s) => ["Public signing key: " ++ s]
     | _ => [])
  else [])

/-- The loop of handleGetSelf over the entries of the self record: the entry
value is asserted to be an object with a single-valued assertion, so a
mismatch panics after the earlier entries printed. -/
def selfFold (verbose : Bool) : List (String × JVal) → Out
  | [] => ([], none)
  | (k, v) :: rest =>
    match v with
    | .obj m =>
      let r := selfFold verbose rest
      (selfEntryLines k m verbose ++ r.1, r.2)
    | _ => ([], some "interface conversion")

/-- handleGetSelf, lines 288 to 318: the self field itself is read with a
single-valued assertion, so its absence or a non-object value panics. -/
def handleGetSelf (res : JMap) (verbose : Bool) : Out :=
  match jget res "self" with
  | some (.obj self) => selfFold verbose self
  | _ => ([], some "interface conversion")

/-- handleGetAndSetTunTap, lines 276 to 286: the interface name prints
before the entry value is asserted to be an object. -/
def tunTapLoop : List (String × JVal) → Out
  | [] => ([], none)
  | (k, v) :: rest =>
    match v with
    | .obj m =>
      let l1 := match jget m "mtu" with
        | some (.num q) => ["Interface MTU: " ++ goFloat q]
        | _ => []
      let l2 := match jget m "tap_mode" with
        | some (.bool b) => ["TAP mode: " ++ (if b then "true" else "false")]
        | _ => []
      let r := tunTapLoop rest
      (("Interface name: " ++ k) :: (l1 ++ l2 ++ r.1), r.2)
    | _ => (["Interface name: " ++ k], some "interface conversion")

def handleGetAndSetTunTap (res : JMap) : Out := tunTapLoop res

/-- The printed form of a byte slice, the default verb on a converted
stream identifier at line 355: decimal bytes space-separated in brackets. -/
def bytesRepr (s : String) : String :=
  "[" ++ String.intercalate " " (s.toUTF8.toList.map (fun b => toString b.toNat)) ++ "]"

/-- The three per-port aggregation maps of handleGetSwitchQueues, keyed by
the float64 port number, lines 322 to 324. -/
structure QAgg where
  portqueues : List (ℚ × ℚ)
  portqueuesize : List (ℚ × ℚ)
  portqueuepackets : List (ℚ × ℚ)

def qbump (m : List (ℚ × ℚ)) (k : ℚ) (d : ℚ) : List (ℚ × ℚ) :=
  lset m k ((lget m k).getD 0 + d)

/-- The active-queue loop, lines 345 to 357: four single-valued assertions
per element, then the aggregation updates and the detail line. -/
def queueLoop (maxq : ℚ) (agg : QAgg) : List JVal → QAgg × List String × Option String
  | [] => (agg, [], none)
  | q :: rest =>
    match q with
    | .obj qm =>
      match jget qm "queue_port", jget qm "queue_size", jget qm "queue_packets",
          jget qm "queue_id" with
      | some (.num port), some (.num size), some (.num packets), some (.str qid) =>
        let agg1 : QAgg := ⟨qbump agg.portqueues port 1, qbump agg.portqueuesize port size,
          qbump agg.portqueuepackets port packets⟩
        let pct := 100 / maxq * size
        let line := "- Switch port " ++ toString (goUint port) ++ ", Stream ID: " ++
          bytesRepr qid ++ ", size: " ++ toString (goUint size) ++ " bytes (" ++
          toString (goUint pct) ++ "% full), " ++ toString (goUint packets) ++ " packets"
        let r := queueLoop maxq agg1 rest
        (r.1, line :: r.2.1, r.2.2)
      | _, _, _, _ => (agg, [], some "interface conversion")
    | _ => (agg, [], some "interface conversion")

/-- The per-port aggregation loop, lines 362 to 366. -/
def aggLoop (maxq : ℚ) (agg : QAgg) : List (ℚ × ℚ) → List String
  | [] => []
  | (k, v) :: rest =>
    let pct := 100 / ((lget agg.portqueues k).getD 0 * maxq) * v
    ("- Switch port " ++ toString (goUint k) ++ ", size: " ++ toString (goUint v) ++
      " bytes (" ++ toString (goUint pct) ++ "% full), " ++
      toString (goUint ((lget agg.portqueuepackets k).getD 0)) ++ " packets") ::
      aggLoop maxq agg rest

/-- handleGetSwitchQueues, lines 320 to 368: the switchqueues field is read
with a single-valued assertion, the counters with guarded ones, and the
maximum size defaults to four mebibytes when the server omits it. -/
def handleGetSwitchQueues (res : JMap) : Out :=
  match jget res "switchqueues" with
  | some (.obj v) =>
    let l1 := match jget v "queues_count" with
      | some (.num q) => ["Active queue count: " ++ toString (goUint q) ++ " queues"]
      | _ => []
    let l2 := match jget v "queues_size" with
      | some (.num q) => ["Active queue size: " ++ toString (goUint q) ++ " bytes"]
      | _ => []
    let l3 := match jget v "highest_queues_count" with
      | some (.num q) => ["Highest queue count: " ++ toString (goUint q) ++ " queues"]
      | _ => []
    let l4 := match jget v "highest_queues_size" with
      | some (.num q) => ["Highest queue size: " ++ toString (goUint q) ++ " bytes"]
      | _ => []
    let p : ℚ × List String := match jget v "maximum_queues_size" with
      | some (.num m) => (m, ["Maximum queue size: " ++ toString (goUint m) ++ " bytes"])
      | _ => (4194304, [])
    let r : QAgg × List String × Option String := match jget v "queues" with
      | some (.arr qs) =>
        if qs.length ≠ 0 then
          let r0 := queueLoop p.1 ⟨[], [], []⟩ qs
          (r0.1, "Active queues:" :: r0.2.1, r0.2.2)
        else (⟨[], [], []⟩, [], none)
      | _ => (⟨[], [], []⟩, [], none)
    match r.2.2 with
    | some e => (l1 ++ l2 ++ l3 ++ l4 ++ p.2 ++ r.2.1, some e)
    | none =>
      let al := if r.1.portqueuesize.length > 0 ∧ r.1.portqueuepackets.length > 0 then
          "Aggregated statistics by switchport:" :: aggLoop p.1 r.1 r.1.portqueuesize
        else []
      (l1 ++ l2 ++ l3 ++ l4 ++ p.2 ++ r.2.1 ++ al, none)
  | _ => ([], some "interface conversion")

/-- One optional array section of handleAddsAndRemoves, lines 371 to 390: a
presence check, then a single-valued slice assertion that panics when the
present field is not a sequence. -/
def addRemSection (res : JMap) (field label : String) : Out :=
  match jget res field with
  | none => ([], none)
  | some (.arr xs) => (xs.map (fun v => label ++ goSprint v), none)
  | some _ => ([], some "interface conversion")

def outThen (a b : Out) : Out :=
  match a.2 with
  | some _ => a
  | none => (a.1 ++ b.1, b.2)

/-- handleAddsAndRemoves, lines 370 to 391. -/
def handleAddsAndRemoves (res : JMap) : Out :=
  outThen (addRemSection res "added" "Added: ")
    (outThen (addRemSection res "not_added" "Not added: ")
      (outThen (addRemSection res "removed" "Removed: ")
        (addRemSection res "not_removed" "Not removed: ")))

/-- The shared shape of the three listing formatters, lines 393 to 430: a
fixed sentence when the field is absent or null, otherwise a header line
followed by one bullet per element; the header prints before the slice
assertion, so a non-sequence value panics after the header. -/
def listSection (res : JMap) (field noneMsg header : String) : Out :=
  match jget res field with
  | none => ([noneMsg], none)
  | some .null => ([noneMsg], none)
  | some (.arr xs) => (header :: xs.map (fun v => "- " ++ goSprint v), none)
  | some _ => ([header], some "interface conversion")

def handleGetAllowedEncryptionPublicKeys (res : JMap) : Out :=
  listSection res "allowed_box_pubs" "All connections are allowed"
    "Connections are allowed only from the following public box keys:"

def handleGetMulticastInterfaces (res : JMap) : Out :=
  listSection res "multicast_interfaces" "No multicast interfaces found"
    "Multicast peer discovery is active on:"

def handleGetSourceSubnets (res : JMap) : Out :=
  listSection res "source_subnets" "No source subnets found" "Source subnets:"

/-- handleGetRoutes, lines 432 to 447: a guarded map assertion, the empty
map prints the none sentence, and only string-valued entries print. -/
def handleGetRoutes (res : JMap) : Out :=
  match jget res "routes" with
  | some (.obj routes) =>
    if routes.length = 0 then (["No routes found"], none)
    else
      ("Routes:" :: routes.foldr (fun kv acc =>
        (match kv.2 with
         | .str pv => ["- " ++ kv.1 ++ "  via  " ++ pv]
         | _ => []) ++ acc) [], none)
  | _ => (["No routes found"], none)

/-- handleGetTunnelRouting, lines 449 to 457. -/
def handleGetTunnelRouting (res : JMap) : Out :=
  match jget res "enabled" with
  | some (.bool true) => (["Tunnel routing is enabled"], none)
  | _ => (["Tunnel routing is disabled"], none)

/-- The dispatcher handleAll, lines 173 to 207: two single-valued object
assertions and a string assertion on the echoed name, then an exact switch
on its lower-cased form; no match pretty-prints the raw response. -/
def handleAll (recv : JMap) (verbose : Bool) : Out :=
  match jget recv "request" with
  | some (.obj req) =>
    match jget recv "response" with
    | some (.obj res) =>
      match jget req "request" with
      | some (.str name) =>
        match asciiLower name with
        | "dot" => handleDot res
        | "list" | "getpeers" | "getswitchpeers" | "getdht" | "getsessions"
        | "dhtping" => handleVariousInfo res verbose
        | "gettuntap" | "settuntap" => handleGetAndSetTunTap res
        | "getself" => handleGetSelf res verbose
        | "getswitchqueues" => handleGetSwitchQueues res
        | "addpeer" | "removepeer" | "addallowedencryptionpublickey"
        | "removeallowedencryptionpublickey" | "addsourcesubnet" | "addroute"
        | "removesourcesubnet" | "removeroute" => handleAddsAndRemoves res
        | "getallowedencryptionpublickeys" => handleGetAllowedEncryptionPublicKeys res
        | "getmulticastinterfaces" => handleGetMulticastInterfaces res
        | "getsourcesubnets" => handleGetSourceSubnets res
        | "getroutes" => handleGetRoutes res
        | "settunnelrouting" | "gettunnelrouting" => handleGetTunnelRouting res
        | _ => ([marshalIndent (.obj res)], none)
      | _ => ([], some "interface conversion")
    | _ => ([], some "interface conversion")
  | _ => ([], some "interface conversion")

/-- The final status check of run, lines 137 to 141: a present status other
than success returns one, otherwise zero. -/
def statusExit (recv : JMap) : Nat :=
  match jget recv "status" with
  | some v => if isStrEq v "success" then 0 else 1
  | none => 0

/-- Is the decoded status the error string, line 107. -/
def statusError (recv : JMap) : Bool :=
  match jget recv "status" with
  | some v => isStrEq v "error"
  | none => false

/-- The response phase of run, lines 105 to 141, together with the recover
handler of lines 31 to 38.  The argument is the decode result: none means
the decoder failed, in which case the receive map stays empty, the error
goes only to the unflushed log buffer, and control falls through to the
status check.  A panic anywhere in this phase prints the fatal diagnostic
and makes run return 0, since the deferred closure cannot set the unnamed
result. -/
def runPost (decoded : Option JMap) (injson verbose : Bool) : Nat × List String :=
  match decoded with
  | none => (statusExit [], [])
  | some recv =>
    if statusError recv then
      match jget recv "error" with
      | some e => (1, ["Admin socket returned an error: " ++ goSprint e])
      | none => (1, ["Admin socket returned an error but didn't specify any error text"])
    else if (jget recv "request").isNone then
      (1, ["Missing request in response (malformed response?)"])
    else if (jget recv "response").isNone then
      (1, ["Missing response body (malformed response?)"])
    else
      match jget recv "response" with
      | some (.obj res) =>
        if injson then (0, [marshalIndent (.obj res)])
        else
          let o := handleAll recv verbose
          match o.2 with
          | some e => (0, o.1 ++ ["Fatal error: " ++ e])
          | none => (statusExit recv, o.1)
      | _ => (0, ["Fatal error: interface conversion"])

theorem strMk_data (a : String) : String.mk a.data = a := by
  cases a
  rfl

theorem lget_lset_self {κ α : Type} [DecidableEq κ] (m : List (κ × α)) (k : κ) (v : α) :
    lget (lset m k v) k = some v := by
  induction m with
  | nil => simp [lget, lset]
  | cons p rest ih =>
    obtain ⟨k0, v0⟩ := p
    by_cases h : k0 = k
    · simp [lget, lset, h]
    · simp [lget, lset, h, ih]

theorem lget_lset_ne {κ α : Type} [DecidableEq κ] (m : List (κ × α)) (k k' : κ) (v : α)
    (h : k ≠ k') : lget (lset m k v) k' = lget m k' := by
  induction m with
  | nil => simp [lget, lset, h]
  | cons p rest ih =>
    obtain ⟨k0, v0⟩ := p
    by_cases h0 : k0 = k
    · subst h0
      simp [lget, lset, h]
    · simp [lget, lset, h0, ih]

theorem splitEq_ne_nil (l : List Char) : splitEq l ≠ [] := by
  cases l with
  | nil => simp [splitEq]
  | cons c rest =>
    by_cases h : c = '='
    · simp [splitEq, h]
    · simp only [splitEq, if_neg h]
      cases hs : splitEq rest <;> simp

theorem splitEq_length (l : List Char) : (splitEq l).length = l.count '=' + 1 := by
  induction l with
  | nil => simp [splitEq]
  | cons c rest ih =>
    by_cases h : c = '='
    · subst h
      simp [splitEq, ih, List.count_cons]
    · simp only [splitEq, if_neg h]
      cases hs : splitEq rest with
      | nil => exact absurd hs (splitEq_ne_nil rest)
      | cons x t =>
        rw [hs] at ih
        simp at ih
        simp [List.count_cons, h, ih]

theorem splitEq_head (l : List Char) :
    splitEq l = l.takeWhile (fun c => c != '=') :: (splitEq l).tail := by
  induction l with
  | nil => simp [splitEq]
  | cons c rest ih =>
    by_cases h : c = '='
    · subst h
      simp [splitEq, List.takeWhile]
    · simp only [splitEq, if_neg h]
      cases hs : splitEq rest with
      | nil => exact absurd hs (splitEq_ne_nil rest)
      | cons x t =>
        rw [hs] at ih
        simp only [List.tail_cons] at ih
        have hx : x = rest.takeWhile (fun c => c != '=') := by
          injection ih
        have hbne : (c != '=') = true := by simp [h]
        simp [List.takeWhile, hbne, hx]

theorem joinEq_splitEq (l : List Char) : joinEq (splitEq l) = l := by
  induction l with
  | nil => simp [splitEq, joinEq]
  | cons c rest ih =>
    by_cases h : c = '='
    · subst h
      simp only [splitEq, if_pos rfl]
      cases hs : splitEq rest with
      | nil => exact absurd hs (splitEq_ne_nil rest)
      | cons x t =>
        rw [hs] at ih
        simp [joinEq, ih]
    · simp only [splitEq, if_neg h]
      cases hs : splitEq rest with
      | nil => exact absurd hs (splitEq_ne_nil rest)
      | cons x t =>
        rw [hs] at ih
        cases t with
        | nil => simp_all [joinEq]
        | cons y t2 => simp_all [joinEq]

theorem joinEq_splitEq_tail (l : List Char) (h : l.count '=' ≠ 0) :
    joinEq ((splitEq l).tail) = (l.dropWhile (fun c => c != '=')).tail := by
  induction l with
  | nil => simp at h
  | cons c rest ih =>
    by_cases hc : c = '='
    · subst hc
      simp only [splitEq, if_true, List.tail_cons]
      simp [List.dropWhile_cons]
      exact joinEq_splitEq rest
    · simp only [splitEq, if_neg hc]
      have hcount : rest.count '=' ≠ 0 := by
        simpa [List.count_cons, hc] using h
      have hbne : (c != '=') = true := by simp [hc]
      cases hs : splitEq rest with
      | nil => exact absurd hs (splitEq_ne_nil rest)
      | cons x t =>
        rw [hs] at ih
        simp only [List.tail_cons] at ih
        simp only [List.tail_cons]
        rw [ih hcount]
        simp [List.dropWhile_cons, hbne]

theorem splitEq_shape (a : String) :
    (a.data.count '=' = 0 → splitEq a.data = [a.data]) ∧
    (a.data.count '=' = 1 →
      splitEq a.data = [a.data.takeWhile (fun c => c != '='),
        (a.data.dropWhile (fun c => c != '=')).tail]) ∧
    (∀ n, a.data.count '=' = n + 2 →
      ∃ t1 t2 ts, splitEq a.data = a.data.takeWhile (fun c => c != '=') :: t1 :: t2 :: ts ∧
        joinEq (t1 :: t2 :: ts) = (a.data.dropWhile (fun c => c != '=')).tail) := by
  have hlen := splitEq_length a.data
  have hhead := splitEq_head a.data
  have hjoin := joinEq_splitEq a.data
  refine ⟨?_, ?_, ?_⟩
  · intro hc
    rw [hc] at hlen
    cases hs : splitEq a.data with
    | nil => exact absurd hs (splitEq_ne_nil _)
    | cons t0 ts =>
      cases ts with
      | nil =>
        rw [hs] at hjoin
        simp [joinEq] at hjoin
        rw [hjoin]
      | cons t1 ts2 =>
        rw [hs] at hlen
        simp at hlen
  · intro hc
    have htail := joinEq_splitEq_tail a.data (by rw [hc]; simp)
    rw [hc] at hlen
    cases hs : splitEq a.data with
    | nil => exact absurd hs (splitEq_ne_nil _)
    | cons t0 ts =>
      cases ts with
      | nil =>
        rw [hs] at hlen
        simp at hlen
      | cons t1 ts2 =>
        cases ts2 with
        | nil =>
          rw [hs] at hhead
          rw [hs] at htail
          simp [joinEq] at htail
          have ht0 : t0 = a.data.takeWhile (fun c => c != '=') := by
            injection hhead
          rw [ht0, htail]
        | cons t2 ts3 =>
          rw [hs] at hlen
          simp at hlen
  · intro n hc
    have htail := joinEq_splitEq_tail a.data (by rw [hc]; simp)
    rw [hc] at hlen
    cases hs : splitEq a.data with
    | nil => exact absurd hs (splitEq_ne_nil _)
    | cons t0 ts =>
      cases ts with
      | nil =>
        rw [hs] at hlen
        simp at hlen
      | cons t1 ts2 =>
        cases ts2 with
        | nil =>
          rw [hs] at hlen
          simp at hlen
        | cons t2 ts3 =>
          rw [hs] at hhead
          rw [hs] at htail
          have ht0 : t0 = a.data.takeWhile (fun c => c != '=') := by
            injection hhead
          refine ⟨t1, t2, ts3, ?_, ?_⟩
          · rw [ht0]
          · simpa using htail

theorem coerceParam_count_zero (a : String) (hc : a.data.count '=' = 0) :
    coerceParam a = (a, .bool true) := by
  have hx := (splitEq_shape a).1 hc
  unfold coerceParam
  rw [hx]

theorem coerceParam_count_one (a : String) (hc : a.data.count '=' = 1) :
    coerceParam a = (keyPart a, coerce2 (afterEq a).data) := by
  have hx := (splitEq_shape a).2.1 hc
  unfold coerceParam
  rw [hx]
  rfl

theorem coerceParam_count_many (a : String) (n : Nat) (hc : a.data.count '=' = n + 2) :
    coerceParam a = (keyPart a, .str (afterEq a)) := by
  obtain ⟨t1, t2, ts, hx, hj⟩ := (splitEq_shape a).2.2 n hc
  unfold coerceParam
  rw [hx]
  unfold keyPart afterEq
  rw [← hj]

theorem keyPart_of_count_zero (a : String) (hc : a.data.count '=' = 0) : keyPart a = a := by
  unfold keyPart
  have hnot : '=' ∉ a.data := List.count_eq_zero.mp hc
  have h1 : a.data.takeWhile (fun c => c != '=') = a.data := by
    rw [List.takeWhile_eq_self_iff]
    intro x hx
    simp only [bne_iff_ne, ne_eq]
    intro hEq
    exact hnot (hEq ▸ hx)
  rw [h1, strMk_data]

theorem coerceParam_fst (a : String) : (coerceParam a).1 = keyPart a := by
  rcases hc : a.data.count '=' with _ | m
  · rw [coerceParam_count_zero a hc, keyPart_of_count_zero a hc]
  · rcases m with _ | n
    · rw [coerceParam_count_one a hc]
    · rw [coerceParam_count_many a n hc]

theorem buildFold (rest : List String) (m : JMap) :
    jget (List.foldl (fun send a => jset send (coerceParam a).1 (coerceParam a).2) m rest)
        "request" =
      match (rest.filter (fun a => keyPart a == "request")).getLast? with
      | some t => some (coerceParam t).2
      | none => jget m "request" := by
  induction rest generalizing m with
  | nil => simp
  | cons a rest ih =>
    rw [List.foldl_cons, ih, List.filter_cons]
    by_cases hk : keyPart a = "request"
    · simp only [hk, beq_self_eq_true, if_true]
      cases hl : (rest.filter (fun a => keyPart a == "request")).getLast? with
      | some t =>
        obtain ⟨b, l', hbl⟩ : ∃ b l',
            rest.filter (fun a => keyPart a == "request") = b :: l' := by
          cases h0 : rest.filter (fun a => keyPart a == "request") with
          | nil => rw [h0] at hl; simp at hl
          | cons b l' => exact ⟨b, l', rfl⟩
        rw [hbl]
        rw [hbl] at hl
        rw [List.getLast?_cons_cons, hl]
      | none =>
        have hnil : rest.filter (fun a => keyPart a == "request") = [] :=
          List.getLast?_eq_none_iff.mp hl
        rw [hnil]
        simp only [List.getLast?_singleton]
        unfold jget jset
        rw [coerceParam_fst, hk]
        rw [lget_lset_self]
    · have hkb : (keyPart a == "request") = false := by
        simp [hk]
      simp only [hkb, Bool.false_eq_true, if_false]
      cases hl : (rest.filter (fun a => keyPart a == "request")).getLast? with
      | some t => rfl
      | none =>
        unfold jget jset
        rw [coerceParam_fst]
        rw [lget_lset_ne]
        exact hk

theorem lset_fresh {κ α : Type} [DecidableEq κ] (m : List (κ × α)) (k : κ) (v : α)
    (h : ∀ p ∈ m, p.1 ≠ k) : lset m k v = m ++ [(k, v)] := by
  induction m with
  | nil => rfl
  | cons p rest ih =>
    obtain ⟨k0, v0⟩ := p
    have hk0 : k0 ≠ k := h (k0, v0) (by simp)
    simp only [lset, if_neg hk0, List.cons_append, List.cons.injEq, true_and]
    exact ih (fun q hq => h q (by simp [hq]))

theorem foldl_jset_fresh (params : List (String × JVal)) (m : JMap)
    (hfresh : ∀ p ∈ params, ∀ q ∈ m, q.1 ≠ p.1)
    (hnd : (params.map Prod.fst).Nodup) :
    params.foldl (fun acc p => jset acc p.1 p.2) m = m ++ params := by
  induction params generalizing m with
  | nil => simp
  | cons p rest ih =>
    rw [List.foldl_cons]
    have h1 : jset m p.1 p.2 = m ++ [p] := by
      unfold jset
      rw [lset_fresh]
      intro q hq
      exact hfresh p (by simp) q hq
    have hnd2 := hnd
    rw [List.map_cons, List.nodup_cons] at hnd2
    rw [h1, ih]
    · simp
    · intro r hr q hq
      rcases List.mem_append.mp hq with hq2 | hq2
      · exact hfresh r (by simp [hr]) q hq2
      · have hq3 : q = p := by simpa using hq2
        rw [hq3]
        intro hEq
        exact hnd2.1 (hEq ▸ List.mem_map_of_mem Prod.fst hr)
    · exact hnd2.2

theorem isStrEq_true_iff (v : JVal) (s : String) : isStrEq v s = true ↔ v = .str s := by
  cases v <;> simp [isStrEq]

theorem statusError_true_iff (recv : JMap) :
    statusError recv = true ↔ jget recv "status" = some (.str "error") := by
  unfold statusError
  cases h : jget recv "status" with
  | none => simp
  | some v => simp [isStrEq_true_iff]

theorem statusError_false_of_ne (recv : JMap)
    (h : jget recv "status" ≠ some (.str "error")) : statusError recv = false := by
  cases hb : statusError recv
  · rfl
  · exact absurd ((statusError_true_iff recv).mp hb) h

theorem statusExit_of_present_ne (recv : JMap) (v : JVal)
    (h : jget recv "status" = some v) (hne : v ≠ .str "success") :
    statusExit recv = 1 := by
  unfold statusExit
  have hf : isStrEq v "success" = false := by
    cases hb : isStrEq v "success"
    · rfl
    · exact absurd ((isStrEq_true_iff v "success").mp hb) hne
  simp [h, hf]

theorem statusExit_of_absent (recv : JMap) (h : jget recv "status" = none) :
    statusExit recv = 0 := by
  unfold statusExit
  rw [h]

theorem handleAll_req_obj (recv : JMap) (verbose : Bool)
    (hok : (handleAll recv verbose).2 = none) :
    ∃ req, jget recv "request" = some (.obj req) := by
  unfold handleAll at hok
  cases h : jget recv "request" with
  | none => rw [h] at hok; simp at hok
  | some v =>
    rw [h] at hok
    cases v with
    | obj req => exact ⟨req, rfl⟩
    | null => simp at hok
    | bool b => simp at hok
    | num q => simp at hok
    | str s => simp at hok
    | arr xs => simp at hok

theorem runPost_formatter_path (recv : JMap) (res : JMap) (verbose : Bool)
    (hserr : jget recv "status" ≠ some (.str "error"))
    (hresp : jget recv "response" = some (.obj res))
    (hok : (handleAll recv verbose).2 = none) :
    runPost (some recv) false verbose = (statusExit recv, (handleAll recv verbose).1) := by
  obtain ⟨req, hreq⟩ := handleAll_req_obj recv verbose hok
  unfold runPost
  simp only [statusError_false_of_ne recv hserr, hreq, hresp, hok,
    Option.isNone_some, Bool.false_eq_true, if_false]

theorem selfFold_no_panic (verbose : Bool) (self : List (String × JVal))
    (hobj : ∀ p ∈ self, ∃ m, p.2 = JVal.obj m) : (selfFold verbose self).2 = none := by
  induction self with
  | nil => rfl
  | cons p rest ih =>
    obtain ⟨m, hm⟩ := hobj p (by simp)
    obtain ⟨k, v⟩ := p
    simp only at hm
    subst hm
    unfold selfFold
    simp only
    exact ih (fun q hq => hobj q (by simp [hq]))

theorem some_str_ne (s t : String) (h : s ≠ t) :
    (some (JVal.str s) : Option JVal) ≠ some (JVal.str t) := by
  intro hc
  injection hc with h1
  injection h1 with h2
  exact h h2

/-- C1 counterexample: when the decoder fails, the embedded response phase
prints nothing at all and run returns 0, not a non-zero code: the decode
error is written only to the buffered logger, which is never flushed on
this path, and the final status check sees an empty map. -/
theorem c1_counterexample :
    (runPost none false false).1 = 0 ∧ (runPost none false false).2 = [] :=
  ⟨rfl, rfl⟩

/-- C1 amended: for every invocation in which decoding the response fails,
the failure is recorded only in the in-memory log buffer, nothing is
printed, and the process exits 0, because the receive map stays empty and
the closing status check treats an absent status as success. -/
theorem c1_amended (injson verbose : Bool) : runPost none injson verbose = (0, []) := rfl

/-- C2 counterexample: on a response body with no self field the formatter
for getself panics at the unchecked map assertion instead of omitting a
line, so an accessor whose expected field is absent does abort. -/
theorem c2_counterexample :
    handleGetSelf [] false = ([], some "interface conversion") ∧
      (handleGetSelf [] false).2 ≠ none :=
  ⟨by decide, by decide⟩

/-- C2 amended: the leaf accessors of the getself formatter, written with
two-valued assertions, fail safely by omitting their line, and the
formatter completes without panic whenever the self field is an object all
of whose entry values are objects; an entry with no recognized leaf field
prints only its address line.  The unguarded assertions on the self field
itself and on each entry value abort via panic when they mismatch. -/
theorem c2_amended (res : JMap) (self : List (String × JVal)) (verbose : Bool)
    (hself : jget res "self" = some (.obj self))
    (hobj : ∀ p ∈ self, ∃ m, p.2 = JVal.obj m) :
    (handleGetSelf res verbose).2 = none ∧
      ∀ k, selfEntryLines k [] verbose = ["IPv6 address: " ++ k] := by
  constructor
  · unfold handleGetSelf
    rw [hself]
    exact selfFold_no_panic verbose self hobj
  · intro k
    cases verbose <;> rfl

/-- C2 witness: the amended statement at a concrete well-shaped response. -/
theorem c2_witness :
    (handleGetSelf [("self", JVal.obj [("200:1::1", JVal.obj [("build_name", JVal.str "ygg")])])]
        false).2 = none ∧
      selfEntryLines "x" [] false = ["IPv6 address: " ++ "x"] := by
  have h := c2_amended
    [("self", JVal.obj [("200:1::1", JVal.obj [("build_name", JVal.str "ygg")])])]
    [("200:1::1", JVal.obj [("build_name", JVal.str "ygg")])] false rfl
    (by
      intro p hp
      rw [List.mem_singleton] at hp
      subst hp
      exact ⟨[("build_name", JVal.str "ygg")], rfl⟩)
  exact ⟨h.1, h.2 "x"⟩

/-- C3 counterexample: with the category of one record first and an empty
category second, the renderer prints a third line, a header rebuilt from
the column list and widths carried over from the first category, while the
empty category alone prints nothing and the first category alone prints
two lines; so the column state persists across categories and an empty
category does produce output once columns were discovered earlier. -/
theorem c3_counterexample :
    handleVariousInfo [("peers", .obj [("p1", .obj [("addr", .str "x")])]),
        ("empty", .obj [])] false =
      (["    addr  ", "p1  x     ", "    addr  "], none) ∧
    handleVariousInfo [("peers", .obj [("p1", .obj [("addr", .str "x")])])] false =
      (["    addr  ", "p1  x     "], none) ∧
    handleVariousInfo [("empty", .obj [])] false = ([], none) :=
  ⟨by decide, by decide, by decide⟩

/-- C3 amended: the column list, widths and the ordering flag are one state
threaded through all categories: a category with zero records leaves that
state unchanged for the next category, emits nothing when no columns have
been discovered yet, and emits exactly one header line built from the
carried-over state when an earlier category already discovered columns. -/
theorem c3_amended (verbose : Bool) (st : TableState) :
    (processCategory verbose st (.obj [])).1 = st ∧
    (st.keyOrder = [] → (processCategory verbose st (.obj [])).2 = ([], none)) ∧
    (st.keyOrder ≠ [] → (processCategory verbose st (.obj [])).2 = ([headerLine st], none)) := by
  unfold processCategory pass1 pass2
  refine ⟨rfl, ?_, ?_⟩
  · intro h
    simp [h]
  · intro h
    have hpos : st.keyOrder.length > 0 := List.length_pos.mpr h
    simp [hpos]

/-- C3 witness: the amended statement at a concrete carried-over state. -/
theorem c3_witness :
    (processCategory false ⟨[("key", 2), ("addr", 4)], ["addr"], true⟩ (.obj [])).1 =
        (⟨[("key", 2), ("addr", 4)], ["addr"], true⟩ : TableState) ∧
      (processCategory false ⟨[("key", 2), ("addr", 4)], ["addr"], true⟩ (.obj [])).2 =
        ([headerLine ⟨[("key", 2), ("addr", 4)], ["addr"], true⟩], none) := by
  have h := c3_amended false ⟨[("key", 2), ("addr", 4)], ["addr"], true⟩
  exact ⟨h.1, h.2.2 (by simp)⟩

/-- C4: for every argument after the command name, the built parameter is
exactly what the specification describes: a token with no equals sign maps
to Bool true under the whole token; with exactly one equals sign the value
is parsed as an integer when possible, otherwise matched case
insensitively against true and false, otherwise stored as text; with more
than one equals sign the remaining segments rejoined with the separator
are stored as text with no numeric or boolean coercion. -/
theorem c4_coercion (a : String) : coerceParam a = claimCoerce a := by
  rcases hc : a.data.count '=' with _ | m
  · rw [coerceParam_count_zero a hc]
    unfold claimCoerce eqCount
    rw [hc]
    simp
  · rcases m with _ | n
    · rw [coerceParam_count_one a hc]
      unfold claimCoerce eqCount
      rw [hc]
      rw [if_neg (by omega), if_pos (by omega)]
      unfold coerce2
      rw [strMk_data]
    · rw [coerceParam_count_many a n hc]
      unfold claimCoerce eqCount
      rw [hc]
      simp

/-- C5: whenever the decoded status field is the string error, no formatter
runs: the only printed line carries the server-supplied error value when
the error field is present and the fixed fallback sentence when it is
absent, and the process exits 1. -/
theorem c5_error_status (recv : JMap) (injson verbose : Bool)
    (h : jget recv "status" = some (.str "error")) :
    runPost (some recv) injson verbose =
      (1, [match jget recv "error" with
           | some e => "Admin socket returned an error: " ++ goSprint e
           | none => "Admin socket returned an error but didn't specify any error text"]) := by
  unfold runPost
  have hse : statusError recv = true := (statusError_true_iff recv).mpr h
  simp only [hse, if_true]
  cases he : jget recv "error" <;> rfl

/-- C5 witness: the disabled scenario prints exactly the documented line
and exits 1, with the raw and verbose flags off. -/
theorem c5_witness :
    runPost (some [("status", JVal.str "error"), ("error", JVal.str "disabled")]) false false =
      (1, ["Admin socket returned an error: disabled"]) := by
  have h := c5_error_status [("status", JVal.str "error"), ("error", JVal.str "disabled")]
    false false rfl
  rw [h]
  rfl

/-- C6: when the status is not the error string and the request field or
the response field is absent, the run phase prints a single malformed
response diagnostic, distinct from the error-status message, runs no
formatter, and exits 1. -/
theorem c6_malformed (recv : JMap) (injson verbose : Bool)
    (hserr : jget recv "status" ≠ some (.str "error"))
    (hmiss : jget recv "request" = none ∨ jget recv "response" = none) :
    ∃ msg, runPost (some recv) injson verbose = (1, [msg]) ∧
      (msg = "Missing request in response (malformed response?)" ∨
       msg = "Missing response body (malformed response?)") ∧
      hasPre "Admin socket returned an error" msg = false := by
  simp only [runPost, statusError_false_of_ne recv hserr, Bool.false_eq_true, if_false]
  cases hreq : jget recv "request" with
  | none =>
    refine ⟨"Missing request in response (malformed response?)", ?_, Or.inl rfl, by decide⟩
    simp
  | some v =>
    have hresp : jget recv "response" = none := by
      rcases hmiss with h0 | h0
      · rw [hreq] at h0
        exact absurd h0 (by simp)
      · exact h0
    refine ⟨"Missing response body (malformed response?)", ?_, Or.inr rfl, by decide⟩
    simp [hresp]

/-- C6 witness: the theorem applied to a response carrying only a success
status, where the request field is absent. -/
theorem c6_witness :
    ∃ msg, runPost (some [("status", JVal.str "success")]) false false = (1, [msg]) ∧
      (msg = "Missing request in response (malformed response?)" ∨
       msg = "Missing response body (malformed response?)") ∧
      hasPre "Admin socket returned an error" msg = false := by
  refine c6_malformed [("status", JVal.str "success")] false false ?_ (Or.inl rfl)
  rw [show jget [("status", JVal.str "success")] "status" = some (JVal.str "success") from rfl]
  exact some_str_ne "success" "error" (by decide)

/-- C7: on a numeric uptime or last seen field with a nonnegative seconds
value the cell renders as a clock time whose hours are the floor of the
value over 3600, minutes the floor over 60 modulo 60, and seconds the
floor modulo 60, each printed through the two-digit zero pad; in
particular 125 renders as 00:02:05 and 3661 as 01:01:01. -/
theorem c7_time_format (k : String) (q : ℚ)
    (hk : k = "uptime" ∨ k = "last_seen") (_hq : 0 ≤ q) :
    formatCell k (.num q) =
      .ok (pad2 (Int.toNat (Int.floor (q / 3600))) ++ ":" ++
        pad2 (Int.toNat (Int.floor (q / 60)) % 60) ++ ":" ++
        pad2 (Int.toNat (Int.floor q) % 60)) ∧
    formatCell "uptime" (.num 125) = .ok "00:02:05" ∧
    formatCell "last_seen" (.num 3661) = .ok "01:01:01" := by
  have hdiv : ∀ r : ℚ, r / 60 / 60 = r / 3600 := by
    intro r
    rw [div_div]
    norm_num
  refine ⟨?_, ?_, ?_⟩
  · have hnb : ¬ (k = "bytes_sent" ∨ k = "bytes_recvd") := by
      rcases hk with h | h <;> subst h <;> decide
    unfold formatCell goUint
    rw [if_neg hnb, if_pos hk]
    simp only [hdiv]
  · unfold formatCell goUint
    rw [if_neg (by decide), if_pos (by decide)]
    have e1 : Int.floor ((125 : ℚ) / 3600) = 0 := by norm_num
    have e2 : Int.floor ((125 : ℚ) / 60) = 2 := by norm_num
    have e3 : Int.floor ((125 : ℚ)) = 125 := by norm_num
    simp only [hdiv, e1, e2, e3]
    rfl
  · unfold formatCell goUint
    rw [if_neg (by decide), if_pos (by decide)]
    have e1 : Int.floor ((3661 : ℚ) / 3600) = 1 := by norm_num
    have e2 : Int.floor ((3661 : ℚ) / 60) = 61 := by norm_num
    have e3 : Int.floor ((3661 : ℚ)) = 3661 := by norm_num
    simp only [hdiv, e1, e2, e3]
    rfl

/-- C7 witness: the theorem applied at the uptime field with 125 seconds. -/
theorem c7_witness :
    0 ≤ (125 : ℚ) ∧ formatCell "uptime" (.num 125) = .ok "00:02:05" := by
  have h := c7_time_format "uptime" 125 (Or.inl rfl) (by norm_num)
  exact ⟨by norm_num, h.2.1⟩

/-- C8: encoding a request whose parameter keys are distinct and avoid the
reserved request key, then decoding the document back as a generic value,
yields the record holding the request name merged with every parameter as
a sibling at top level, not nested under the request key. -/
theorem c8_round_trip (r : Request)
    (hreq : "request" ∉ r.params.map Prod.fst)
    (hnd : (r.params.map Prod.fst).Nodup) :
    decodeEncoded (encodeRequest r) = .obj (("request", .str r.name) :: r.params) := by
  unfold decodeEncoded encodeRequest
  congr 1
  have h0 : jset ([] : JMap) "request" (.str r.name) = [("request", .str r.name)] := rfl
  rw [h0, foldl_jset_fresh]
  · simp
  · intro p hp q hq
    have hq2 : q = ("request", JVal.str r.name) := by simpa using hq
    rw [hq2]
    intro hEq
    have hEq2 : "request" = p.1 := hEq
    apply hreq
    rw [hEq2]
    exact List.mem_map_of_mem Prod.fst hp
  · exact hnd

/-- C8 witness: the round trip at a concrete one-parameter request. -/
theorem c8_witness :
    decodeEncoded (encodeRequest ⟨"getpeers", [("x", JVal.num 5)]⟩) =
      JVal.obj [("request", JVal.str "getpeers"), ("x", JVal.num 5)] :=
  c8_round_trip ⟨"getpeers", [("x", JVal.num 5)]⟩ (by decide) (by decide)

/-- C9: when a later token has the literal key part request, the builder
stores its coerced value in the same top-level slot as the command name,
so the encoded request field equals the last such parameter value rather
than the first positional token. -/
theorem c9_request_param (cmd : String) (rest : List String) (t : String)
    (h : (rest.filter (fun a => keyPart a == "request")).getLast? = some t) :
    jget (buildSend (cmd :: rest)) "request" = some (coerceParam t).2 := by
  simp only [buildSend]
  rw [buildFold, h]

/-- C9 witness: a request parameter overrides the getself command name. -/
theorem c9_witness :
    jget (buildSend ["getself", "request=foo"]) "request" = some (JVal.str "foo") := by
  have h := c9_request_param "getself" ["request=foo"] "request=foo" (by decide)
  rw [h]
  rfl

/-- C10 counterexample: a response whose status is warning, with both the
request and response fields present but the request field a plain string,
makes the dispatcher panic at its unchecked object assertion: no formatter
output appears and the process exits 0, not 1. -/
theorem c10_counterexample :
    runPost (some [("status", JVal.str "warning"), ("request", JVal.str "x"),
        ("response", JVal.obj [])]) false false =
      (0, ["Fatal error: interface conversion"]) := by
  decide

/-- C10 amended: with raw JSON off, for a decoded response whose response
field is an object and whose dispatch through the formatters completes
without a shape panic, a status that is present but neither error nor
success still lets the formatter run and print, yet the exit code is 1;
with the status field absent the formatter runs and the exit code is 0. -/
theorem c10_amended (recv : JMap) (res : JMap) (verbose : Bool)
    (hresp : jget recv "response" = some (.obj res))
    (hok : (handleAll recv verbose).2 = none)
    (hserr : jget recv "status" ≠ some (.str "error"))
    (hssucc : jget recv "status" ≠ some (.str "success")) :
    runPost (some recv) false verbose =
      ((if (jget recv "status").isNone then 0 else 1), (handleAll recv verbose).1) := by
  rw [runPost_formatter_path recv res verbose hserr hresp hok]
  congr 1
  cases hst : jget recv "status" with
  | none =>
    rw [statusExit_of_absent recv hst]
    simp
  | some v =>
    have hvne : v ≠ .str "success" := by
      intro hEq
      rw [hEq] at hst
      exact hssucc hst
    rw [statusExit_of_present_ne recv v hst hvne]
    simp

/-- C10 witness: the amended statement at a concrete dot response carrying
a warning status: the graph formatter output prints and the exit is 1. -/
theorem c10_witness :
    runPost (some [("status", JVal.str "warning"),
        ("request", JVal.obj [("request", JVal.str "dot")]),
        ("response", JVal.obj [("dot", JVal.str "digraph")])]) false false =
      (1, ["digraph"]) := by
  have h := c10_amended
    [("status", JVal.str "warning"), ("request", JVal.obj [("request", JVal.str "dot")]),
      ("response", JVal.obj [("dot", JVal.str "digraph")])]
    [("dot", JVal.str "digraph")] false rfl rfl
    (by
      rw [show jget [("status", JVal.str "warning"),
        ("request", JVal.obj [("request", JVal.str "dot")]),
        ("response", JVal.obj [("dot", JVal.str "digraph")])] "status" =
          some (JVal.str "warning") from rfl]
      exact some_str_ne "warning" "error" (by decide))
    (by
      rw [show jget [("status", JVal.str "warning"),
        ("request", JVal.obj [("request", JVal.str "dot")]),
        ("response", JVal.obj [("dot", JVal.str "digraph")])] "status" =
          some (JVal.str "warning") from rfl]
      exact some_str_ne "warning" "success" (by decide))
  rw [h]
  rfl
